import Mathlib

/-!
Verification development for the fang-lang compiler front end
(src/src/lexer.rs, src/src/parser.rs).

The lexer is a byte-driven finite-state machine (`fsm_proc`) driven by
`Tokenizer.scan`; the parser is a recursive-descent parser over a `Stream`
of tokens.  Both are embedded shallowly below: Rust methods that mutate
`self` become functions from the old value to the new one, `panic!` in the
parser becomes `Option.none`, and byte values are `Nat` (all inputs are
ASCII byte lists).  Loops are modelled by fuel-indexed recursion; the fuel
is always large enough for the concrete runs proved about, and for the
lexer's `feed` loop a fuel of 2 is proved sufficient
(`feedAux_two_suffices`).
-/

namespace Fang

/-- Tokens scanned out by the lexer (lexer.rs, `enum Token`).

The final constructor `Let` is not part of lexer.rs's `Token` enum: it is
referenced by parser.rs line 182 (`Some(Token::Let)`), which names a
variant that lexer.rs never defines.  The embedding carries it as a token
that the tokenizer never produces, so that `parse_statement` can be
translated exactly as written. -/
inductive Token
  | Variable
  | Function
  | Return
  | Identifier (text : String)
  | Number (num : Int)
  | String (str : String)
  | Comma
  | Assign
  | LeftRoundBracket
  | RightRoundBracket
  | LeftCurlyBracket
  | RightCurlyBracket
  | VariableTypeIndicator
  | ReturnTypeIndicator
  | Equal
  | NotEqual
  | Add
  | Minus
  | Times
  | Divide
  | EndOfStatement
  | EndOfProgram
  | Let
  deriving DecidableEq, Repr

/-- `impl PartialEq for Token` (lexer.rs lines 130-158): equality is by
kind only, payloads of `Identifier`, `Number` and `String` are ignored.
Pairs not listed in the source's big disjunction (including any pair
involving `Let`) fall to the `_ => false` arm. -/
def Token.eq : Token → Token → Bool
  | Token.Variable, Token.Variable => true
  | Token.Function, Token.Function => true
  | Token.Return, Token.Return => true
  | Token.Identifier _, Token.Identifier _ => true
  | Token.Number _, Token.Number _ => true
  | Token.String _, Token.String _ => true
  | Token.Comma, Token.Comma => true
  | Token.Assign, Token.Assign => true
  | Token.LeftRoundBracket, Token.LeftRoundBracket => true
  | Token.RightRoundBracket, Token.RightRoundBracket => true
  | Token.LeftCurlyBracket, Token.LeftCurlyBracket => true
  | Token.RightCurlyBracket, Token.RightCurlyBracket => true
  | Token.VariableTypeIndicator, Token.VariableTypeIndicator => true
  | Token.ReturnTypeIndicator, Token.ReturnTypeIndicator => true
  | Token.Equal, Token.Equal => true
  | Token.NotEqual, Token.NotEqual => true
  | Token.Add, Token.Add => true
  | Token.Minus, Token.Minus => true
  | Token.Times, Token.Times => true
  | Token.Divide, Token.Divide => true
  | Token.EndOfStatement, Token.EndOfStatement => true
  | Token.EndOfProgram, Token.EndOfProgram => true
  | _, _ => false

/-- Rust `Option<&Token> == Option<&Token>`, using `Token.eq` on the
payloads (both `peek() == Some(&expected)` in `match_token` and
`peek() != Some(&EndOfProgram)` in `parse_program` compare this way). -/
def optTokenEq : Option Token → Option Token → Bool
  | some a, some b => Token.eq a b
  | none, none => true
  | _, _ => false

/-- `struct Stream` (lexer.rs lines 160-164): token sequence plus cursor. -/
structure Stream where
  tokens : List Token
  current : Nat
  deriving DecidableEq, Repr

/-- `Stream::new` (lexer.rs lines 167-172). -/
def Stream.new (tokens : List Token) : Stream :=
  { tokens := tokens, current := 0 }

/-- `Stream::consume` (lexer.rs lines 174-184): return the token at the
cursor and advance, or `none` (cursor unchanged) when past the end. -/
def Stream.consume (s : Stream) : Option Token × Stream :=
  if h : s.current < s.tokens.length then
    (some (s.tokens.get ⟨s.current, h⟩), { s with current := s.current + 1 })
  else
    (none, s)

/-- `Stream::peek` (lexer.rs lines 186-192). -/
def Stream.peek (s : Stream) : Option Token :=
  if h : s.current < s.tokens.length then
    some (s.tokens.get ⟨s.current, h⟩)
  else
    none

/-- `Stream::match_token` (lexer.rs lines 194-200): kind-level comparison
of `peek()` with the expected token. -/
def Stream.match_token (s : Stream) (expected : Token) : Bool :=
  optTokenEq s.peek (some expected)

/-- `enum State` (lexer.rs lines 203-237): the lexer FSM's states. -/
inductive State
  | Start
  | HaveCharEqual
  | HaveCharExclamationMark
  | HaveCharHyphen
  | HaveCharForwardSlash
  | HaveIdentifierChar
  | HaveNumericChar
  | HaveStringStart
  | HaveSingleLineCommentStart
  | HaveMultiLineCommentStart
  | HaveMultiLineCommentEndCharAsterisk
  deriving DecidableEq, Repr

/-- `struct Tokenizer` (lexer.rs lines 239-245). -/
structure Tokenizer where
  state : State
  tokens : List Token
  identifier : String
  number : Int
  string : String
  deriving DecidableEq, Repr

/-- `enum Result` (lexer.rs lines 247-253): the step-function outcome. -/
inductive Result
  | Continue
  | Again
  | InvalidByte
  | Done
  deriving DecidableEq, Repr

/-- lexer.rs lines 255-265: `[A-Za-z_]`. -/
def is_identifier_first_byte (byte : Nat) : Bool :=
  if (byte ≥ 97 && byte ≤ 122) ||
     (byte ≥ 65 && byte ≤ 90) ||
     byte == 95 then
    true
  else
    false

/-- lexer.rs lines 267-279: `[A-Za-z0-9_]`. -/
def is_identifier_other_byte (byte : Nat) : Bool :=
  if (byte ≥ 97 && byte ≤ 122) ||
     (byte ≥ 65 && byte ≤ 90) ||
     (byte ≥ 48 && byte ≤ 57) ||
     byte == 95 then
    true
  else
    false

/-- lexer.rs lines 281-288: `[0-9]`. -/
def is_number_byte (byte : Nat) : Bool :=
  if byte ≥ 48 && byte ≤ 57 then true else false

/-- lexer.rs lines 290-298: space, CR, LF. -/
def is_space_byte (byte : Nat) : Bool :=
  if byte == 32 || byte == 13 || byte == 10 then true else false

/-- lexer.rs lines 300-307: bytes 32..126. -/
def is_ascii_printable_byte (byte : Nat) : Bool :=
  if byte ≥ 32 && byte ≤ 126 then true else false

/-!
`fsm_proc` (lexer.rs lines 309-564) is one Rust function matching on the
FSM state; it is embedded as one definition per match arm plus a
dispatcher, so that each arm can be reasoned about separately.  The Rust
function mutates the tokenizer and returns a `Result`; here each arm
returns the new tokenizer paired with the `Result`.  `byte` is `none`
for the end-of-input sentinel.  Byte numerals correspond to the source's
byte literals: 34 quote, 44 comma, 61 equals, 33 exclamation mark,
58 colon, 43 plus, 45 hyphen, 42 asterisk, 47 forward slash, 40/41 round
brackets, 123/125 curly brackets, 59 semicolon, 62 greater-than,
13 CR, 10 LF.
-/

/-- `State::Start` arm of `fsm_proc` (lexer.rs lines 311-363). -/
def fsm_proc_start (t : Tokenizer) (byte : Option Nat) : Tokenizer × Result :=
  match byte with
  | none => (t, Result.Done)
  | some byte =>
    if is_identifier_first_byte byte then
      ({ t with identifier := String.push "" (Char.ofNat byte),
                state := State.HaveIdentifierChar }, Result.Continue)
    else if is_number_byte byte then
      ({ t with number := Int.ofNat (byte - 48),
                state := State.HaveNumericChar }, Result.Continue)
    else if byte == 34 then
      ({ t with string := "", state := State.HaveStringStart }, Result.Continue)
    else if byte == 44 then
      ({ t with tokens := t.tokens ++ [Token.Comma] }, Result.Continue)
    else if byte == 61 then
      ({ t with state := State.HaveCharEqual }, Result.Continue)
    else if byte == 33 then
      ({ t with state := State.HaveCharExclamationMark }, Result.Continue)
    else if byte == 58 then
      ({ t with tokens := t.tokens ++ [Token.VariableTypeIndicator] }, Result.Continue)
    else if byte == 43 then
      ({ t with tokens := t.tokens ++ [Token.Add] }, Result.Continue)
    else if byte == 45 then
      ({ t with state := State.HaveCharHyphen }, Result.Continue)
    else if byte == 42 then
      ({ t with tokens := t.tokens ++ [Token.Times] }, Result.Continue)
    else if byte == 47 then
      ({ t with state := State.HaveCharForwardSlash }, Result.Continue)
    else if byte == 40 then
      ({ t with tokens := t.tokens ++ [Token.LeftRoundBracket] }, Result.Continue)
    else if byte == 41 then
      ({ t with tokens := t.tokens ++ [Token.RightRoundBracket] }, Result.Continue)
    else if byte == 123 then
      ({ t with tokens := t.tokens ++ [Token.LeftCurlyBracket] }, Result.Continue)
    else if byte == 125 then
      ({ t with tokens := t.tokens ++ [Token.RightCurlyBracket] }, Result.Continue)
    else if byte == 59 then
      ({ t with tokens := t.tokens ++ [Token.EndOfStatement] }, Result.Continue)
    else if is_space_byte byte then
      (t, Result.Continue)
    else
      (t, Result.InvalidByte)

/-- `State::HaveCharEqual` arm of `fsm_proc` (lexer.rs lines 365-386). -/
def fsm_proc_have_char_equal (t : Tokenizer) (byte : Option Nat) :
    Tokenizer × Result :=
  match byte with
  | none => ({ t with tokens := t.tokens ++ [Token.Assign] }, Result.Done)
  | some byte =>
    if byte == 61 then
      ({ t with tokens := t.tokens ++ [Token.Equal], state := State.Start },
       Result.Continue)
    else
      ({ t with tokens := t.tokens ++ [Token.Assign], state := State.Start },
       Result.Again)

/-- `State::HaveCharExclamationMark` arm of `fsm_proc` (lexer.rs lines
388-403).  Note the `else` branch resets the state to `Start` and then
reports `InvalidByte`. -/
def fsm_proc_have_char_exclamation_mark (t : Tokenizer) (byte : Option Nat) :
    Tokenizer × Result :=
  match byte with
  | none => (t, Result.InvalidByte)
  | some byte =>
    if byte == 61 then
      ({ t with tokens := t.tokens ++ [Token.NotEqual], state := State.Start },
       Result.Continue)
    else
      ({ t with state := State.Start }, Result.InvalidByte)

/-- `State::HaveCharHyphen` arm of `fsm_proc` (lexer.rs lines 405-426). -/
def fsm_proc_have_char_hyphen (t : Tokenizer) (byte : Option Nat) :
    Tokenizer × Result :=
  match byte with
  | none => ({ t with tokens := t.tokens ++ [Token.Minus] }, Result.Done)
  | some byte =>
    if byte == 62 then
      ({ t with tokens := t.tokens ++ [Token.ReturnTypeIndicator],
                state := State.Start }, Result.Continue)
    else
      ({ t with tokens := t.tokens ++ [Token.Minus], state := State.Start },
       Result.Again)

/-- `State::HaveIdentifierChar` arm of `fsm_proc` (lexer.rs lines
428-457).  On the end-of-input sentinel it returns `Done` WITHOUT pushing
the accumulated identifier, exactly as the source does. -/
def fsm_proc_have_identifier_char (t : Tokenizer) (byte : Option Nat) :
    Tokenizer × Result :=
  match byte with
  | none => (t, Result.Done)
  | some byte =>
    if is_identifier_other_byte byte then
      ({ t with identifier := t.identifier.push (Char.ofNat byte) },
       Result.Continue)
    else
      let identifier := t.identifier
      let token : Token :=
        if identifier == "var" then Token.Variable
        else if identifier == "func" then Token.Function
        else if identifier == "return" then Token.Return
        else Token.Identifier identifier
      ({ t with tokens := t.tokens ++ [token], state := State.Start },
       Result.Again)

/-- `State::HaveNumericChar` arm of `fsm_proc` (lexer.rs lines 459-479).
On the end-of-input sentinel it returns `Done` WITHOUT pushing the
accumulated number, exactly as the source does. -/
def fsm_proc_have_numeric_char (t : Tokenizer) (byte : Option Nat) :
    Tokenizer × Result :=
  match byte with
  | none => (t, Result.Done)
  | some byte =>
    if is_number_byte byte then
      ({ t with number := t.number * 10 + Int.ofNat (byte - 48) },
       Result.Continue)
    else
      ({ t with tokens := t.tokens ++ [Token.Number t.number],
                state := State.Start }, Result.Again)

/-- `State::HaveStringStart` arm of `fsm_proc` (lexer.rs lines 481-501). -/
def fsm_proc_have_string_start (t : Tokenizer) (byte : Option Nat) :
    Tokenizer × Result :=
  match byte with
  | none => (t, Result.Done)
  | some byte =>
    if byte == 34 then
      ({ t with tokens := t.tokens ++ [Token.String t.string],
                state := State.Start }, Result.Continue)
    else if byte == 13 || byte == 10 || is_ascii_printable_byte byte then
      ({ t with string := t.string.push (Char.ofNat byte) }, Result.Continue)
    else
      (t, Result.InvalidByte)

/-- `State::HaveCharForwardSlash` arm of `fsm_proc` (lexer.rs lines
503-524). -/
def fsm_proc_have_char_forward_slash (t : Tokenizer) (byte : Option Nat) :
    Tokenizer × Result :=
  match byte with
  | none => ({ t with tokens := t.tokens ++ [Token.Divide] }, Result.Done)
  | some byte =>
    if byte == 47 then
      ({ t with state := State.HaveSingleLineCommentStart }, Result.Continue)
    else if byte == 42 then
      ({ t with state := State.HaveMultiLineCommentStart }, Result.Continue)
    else
      ({ t with tokens := t.tokens ++ [Token.Divide], state := State.Start },
       Result.Again)

/-- `State::HaveSingleLineCommentStart` arm of `fsm_proc` (lexer.rs lines
526-536). -/
def fsm_proc_have_single_line_comment_start (t : Tokenizer)
    (byte : Option Nat) : Tokenizer × Result :=
  match byte with
  | none => (t, Result.Done)
  | some byte =>
    if byte == 13 || byte == 10 then
      ({ t with state := State.Start }, Result.Continue)
    else
      (t, Result.Continue)

/-- `State::HaveMultiLineCommentStart` arm of `fsm_proc` (lexer.rs lines
538-547): only an asterisk changes the state; in particular a second
forward slash (the start of a would-be nested comment) is ignored. -/
def fsm_proc_have_multi_line_comment_start (t : Tokenizer)
    (byte : Option Nat) : Tokenizer × Result :=
  match byte with
  | none => (t, Result.Done)
  | some byte =>
    if byte == 42 then
      ({ t with state := State.HaveMultiLineCommentEndCharAsterisk },
       Result.Continue)
    else
      (t, Result.Continue)

/-- `State::HaveMultiLineCommentEndCharAsterisk` arm of `fsm_proc`
(lexer.rs lines 549-560): a forward slash closes the comment and returns
to `Start`; anything else falls back to the in-comment state. -/
def fsm_proc_have_multi_line_comment_end_char_asterisk (t : Tokenizer)
    (byte : Option Nat) : Tokenizer × Result :=
  match byte with
  | none => (t, Result.Done)
  | some byte =>
    if byte == 47 then
      ({ t with state := State.Start }, Result.Continue)
    else
      ({ t with state := State.HaveMultiLineCommentStart }, Result.Continue)

/-- `fsm_proc` (lexer.rs lines 309-564): dispatch on the FSM state. -/
def fsm_proc (t : Tokenizer) (byte : Option Nat) : Tokenizer × Result :=
  match t.state with
  | State.Start => fsm_proc_start t byte
  | State.HaveCharEqual => fsm_proc_have_char_equal t byte
  | State.HaveCharExclamationMark => fsm_proc_have_char_exclamation_mark t byte
  | State.HaveCharHyphen => fsm_proc_have_char_hyphen t byte
  | State.HaveIdentifierChar => fsm_proc_have_identifier_char t byte
  | State.HaveNumericChar => fsm_proc_have_numeric_char t byte
  | State.HaveStringStart => fsm_proc_have_string_start t byte
  | State.HaveCharForwardSlash => fsm_proc_have_char_forward_slash t byte
  | State.HaveSingleLineCommentStart =>
    fsm_proc_have_single_line_comment_start t byte
  | State.HaveMultiLineCommentStart =>
    fsm_proc_have_multi_line_comment_start t byte
  | State.HaveMultiLineCommentEndCharAsterisk =>
    fsm_proc_have_multi_line_comment_end_char_asterisk t byte

/-- Fuel-indexed version of the `loop` in `Tokenizer::feed` (lexer.rs
lines 577-589): repeat `fsm_proc` while it returns `Again`.  Two units of
fuel always suffice (`feedAux_two_suffices`), because every `Again`
transition ends in `State.Start` and `fsm_proc` never returns `Again`
from `State.Start`. -/
def feedAux : Nat → Tokenizer → Option Nat → Tokenizer × Result
  | 0, t, _ => (t, Result.Continue)
  | n + 1, t, byte =>
    match fsm_proc t byte with
    | (t1, Result.Again) => feedAux n t1 byte
    | (t1, r) => (t1, r)

/-- `Tokenizer::feed` (lexer.rs lines 577-589). -/
def Tokenizer.feed (t : Tokenizer) (byte : Option Nat) : Tokenizer × Result :=
  feedAux 2 t byte

/-- `Tokenizer::scan` (lexer.rs lines 591-602): feed every byte, feed the
end-of-input sentinel, then push `EndOfProgram`.  Note that the source
discards the `Result` of every `feed` call; the model does the same by
keeping only the tokenizer component. -/
def Tokenizer.scan (t : Tokenizer) (text : List Nat) : Tokenizer :=
  let t1 := text.foldl (fun acc b => (acc.feed (some b)).1) t
  let t2 := (t1.feed none).1
  { t2 with tokens := t2.tokens ++ [Token.EndOfProgram] }

/-- `Tokenizer::new` (lexer.rs lines 567-575). -/
def Tokenizer.new : Tokenizer :=
  { state := State.Start, tokens := [], identifier := "", number := 0,
    string := "" }

/-- `Tokenizer::extract` (lexer.rs lines 604-613): surrender the tokens as
a fresh stream and reset `state`, `tokens`, `identifier` and `number`.
The source assigns those four fields only; `string` is left as it was. -/
def Tokenizer.extract (t : Tokenizer) : Stream × Tokenizer :=
  (Stream.new t.tokens,
   { t with state := State.Start, tokens := [], identifier := "",
            number := 0 })

/-- End-to-end lexing of a byte list starting from `Tokenizer::new`, as
done by `Frontend::process_string` and `main` (frontend.rs lines 17-31,
main.rs lines 28-42). -/
def tokenize (text : List Nat) : List Token :=
  (Tokenizer.new.scan text).tokens

/-- Byte list of an ASCII source string (Rust `text.as_bytes()`). -/
def strBytes (s : String) : List Nat :=
  s.data.map Char.toNat

/-- `enum BinaryOperator` (parser.rs lines 21-32). -/
inductive BinaryOperator
  | Addition
  | Subtraction
  | Multiplication
  | Division
  | Equal
  | NotEqual
  | Assign
  deriving DecidableEq, Repr

/-- `enum Expression` (parser.rs lines 34-48). -/
inductive Expression
  | Identifier (name : String)
  | Number (num : Int)
  | String (str : String)
  | BinaryOperation (operator : BinaryOperator)
      (operand_left operand_right : Expression)
  | FunctionCall (callee_name : String) (arguments : List Expression)
  deriving Repr

/-- `struct Parameter` (parser.rs lines 50-55). -/
structure Parameter where
  name : String
  type : Option String
  deriving DecidableEq, Repr

/-- `enum Statement` (parser.rs lines 57-143). -/
inductive Statement
  | VariableDefinition (identifier : String) (type : Option String)
      (value : Option Expression)
  | FunctionDefinition (callee_name : String) (parameters : List Parameter)
      (return_type : Option String) (statements : List Statement)
  | Return (expression : Expression)
  | Expression (expression : Expression)
  | Block (statements : List Statement)
  deriving Repr

/-- `struct Program` (parser.rs lines 145-148). -/
structure Program where
  statements : List Statement
  deriving Repr

/-- `Parser::parse_number` (parser.rs lines 661-670).  Consume a `Number`
token or fail (the Rust code panics). -/
def parse_number (s : Stream) : Option (Expression × Stream) :=
  match s.consume with
  | (some (Token.Number num), s1) => some (Expression.Number num, s1)
  | _ => none

/-- `Parser::parse_string` (parser.rs lines 672-681). -/
def parse_string (s : Stream) : Option (Expression × Stream) :=
  match s.consume with
  | (some (Token.String str), s1) => some (Expression.String str, s1)
  | _ => none

/-- `Parser::parse_function_parameter` (parser.rs lines 354-386): consume
the parameter name, then optionally `:` and a type identifier. -/
def parse_function_parameter (s : Stream) : Option (Parameter × Stream) :=
  match s.consume with
  | (some (Token.Identifier name), s1) =>
    match s1.peek with
    | some Token.VariableTypeIndicator =>
      let s2 := (s1.consume).2
      match s2.consume with
      | (some (Token.Identifier id), s3) =>
        some ({ name := name, type := some id }, s3)
      | _ => none
    | _ => some ({ name := name, type := none }, s1)
  | _ => none

/-- The `loop` of `Parser::parse_function_parameters` (parser.rs lines
328-343): peek for `)` (break) or an identifier (parse a parameter), then
peek for `,` (consume and continue) or `)` (break). -/
def parse_function_parameters_loop :
    Nat → Stream → List Parameter → Option (List Parameter × Stream)
  | 0, _, _ => none
  | fuel + 1, s, acc =>
    match s.peek with
    | some Token.RightRoundBracket => some (acc, s)
    | some (Token.Identifier _) =>
      match parse_function_parameter s with
      | some (p, s1) =>
        match s1.peek with
        | some Token.Comma =>
          parse_function_parameters_loop fuel ((s1.consume).2) (acc ++ [p])
        | some Token.RightRoundBracket => some (acc ++ [p], s1)
        | _ => none
      | none => none
    | _ => none

/-- `Parser::parse_function_parameters` (parser.rs lines 317-352):
consume `(`, run the parameter loop, consume `)`. -/
def parse_function_parameters (fuel : Nat) (s : Stream) :
    Option (List Parameter × Stream) :=
  match s.consume with
  | (some Token.LeftRoundBracket, s1) =>
    match parse_function_parameters_loop fuel s1 [] with
    | some (ps, s2) =>
      match s2.consume with
      | (some Token.RightRoundBracket, s3) => some (ps, s3)
      | _ => none
    | none => none
  | _ => none

/-!
The parser's mutually recursive productions are embedded without `mutual`
blocks so that every definition is plain structural recursion (and hence
evaluates by `rfl`).  The only re-entrant productions are
`parse_expression` (reached again from `parse_grouped_expression` and
`parse_function_call_arguments`) and `parse_statement` (reached again
from the block and function-body loops); every function between a knot
and its re-entry takes that production as an explicit argument `pe`
(respectively `ps`), and the knot itself passes its own recursive call at
one unit less fuel.  Loops carry their own fuel and decrement it once per
iteration.
-/

/-- The `loop` of `Parser::parse_function_call_arguments` (parser.rs
lines 633-654): parse an expression, then `,` continues and `)` breaks.
`pe` is the recursive call to `parse_expression`. -/
def parse_function_call_arguments_loop
    (pe : Stream → Option (Expression × Stream)) :
    Nat → Stream → List Expression → Option (List Expression × Stream)
  | 0, _, _ => none
  | fuel + 1, s, acc =>
    match pe s with
    | some (e, s1) =>
      match s1.peek with
      | some Token.Comma =>
        parse_function_call_arguments_loop pe fuel ((s1.consume).2) (acc ++ [e])
      | some Token.RightRoundBracket => some (acc ++ [e], (s1.consume).2)
      | _ => none
    | none => none

/-- `Parser::parse_function_call_arguments` (parser.rs lines 616-659):
consume `(`; an immediate `)` gives the empty list, otherwise run the
argument loop. -/
def parse_function_call_arguments
    (pe : Stream → Option (Expression × Stream)) (fuel : Nat) (s : Stream) :
    Option (List Expression × Stream) :=
  let s0 := (s.consume).2
  match s0.peek with
  | some Token.RightRoundBracket => some ([], (s0.consume).2)
  | _ => parse_function_call_arguments_loop pe fuel s0 []

/-- `Parser::parse_identifier_or_function_call` (parser.rs lines
592-614): consume an identifier; a following `(` makes it a call. -/
def parse_identifier_or_function_call
    (pe : Stream → Option (Expression × Stream)) (fuel : Nat) (s : Stream) :
    Option (Expression × Stream) :=
  match s.consume with
  | (some (Token.Identifier identifier), s1) =>
    match s1.peek with
    | some Token.LeftRoundBracket =>
      match parse_function_call_arguments pe fuel s1 with
      | some (arguments, s2) =>
        some (Expression.FunctionCall identifier arguments, s2)
      | none => none
    | _ => some (Expression.Identifier identifier, s1)
  | _ => none

/-- `Parser::parse_grouped_expression` (parser.rs lines 683-698):
consume `(`, parse the inner expression, consume `)`. -/
def parse_grouped_expression
    (pe : Stream → Option (Expression × Stream)) (s : Stream) :
    Option (Expression × Stream) :=
  let s0 := (s.consume).2
  match pe s0 with
  | some (e, s1) =>
    match s1.consume with
    | (some Token.RightRoundBracket, s2) => some (e, s2)
    | _ => none
  | none => none

/-- `Parser::parse_factor` (parser.rs lines 574-590): dispatch on the
peeked token; anything unexpected panics in the source. -/
def parse_factor
    (pe : Stream → Option (Expression × Stream)) (fuel : Nat) (s : Stream) :
    Option (Expression × Stream) :=
  match s.peek with
  | some (Token.Identifier _) => parse_identifier_or_function_call pe fuel s
  | some (Token.Number _) => parse_number s
  | some (Token.String _) => parse_string s
  | some Token.LeftRoundBracket => parse_grouped_expression pe s
  | _ => none

/-- The `while let` loop of `Parser::parse_term` (parser.rs lines
550-569): fold `*`/`/` leftwards over factors. -/
def parse_term_loop
    (pe : Stream → Option (Expression × Stream)) :
    Nat → Stream → Expression → Option (Expression × Stream)
  | 0, _, _ => none
  | fuel + 1, s, expression_left =>
    match s.peek with
    | some Token.Times =>
      let s1 := (s.consume).2
      match parse_factor pe fuel s1 with
      | some (expression_right, s2) =>
        parse_term_loop pe fuel s2
          (Expression.BinaryOperation BinaryOperator.Multiplication
            expression_left expression_right)
      | none => none
    | some Token.Divide =>
      let s1 := (s.consume).2
      match parse_factor pe fuel s1 with
      | some (expression_right, s2) =>
        parse_term_loop pe fuel s2
          (Expression.BinaryOperation BinaryOperator.Division expression_left
            expression_right)
      | none => none
    | _ => some (expression_left, s)

/-- `Parser::parse_term` (parser.rs lines 545-572). -/
def parse_term
    (pe : Stream → Option (Expression × Stream)) (fuel : Nat) (s : Stream) :
    Option (Expression × Stream) :=
  match parse_factor pe fuel s with
  | some (expression_left, s1) => parse_term_loop pe fuel s1 expression_left
  | none => none

/-- The `while let` loop of `Parser::parse_comparison_operand` (parser.rs
lines 521-540): fold `+`/`-` leftwards over terms. -/
def parse_comparison_operand_loop
    (pe : Stream → Option (Expression × Stream)) :
    Nat → Stream → Expression → Option (Expression × Stream)
  | 0, _, _ => none
  | fuel + 1, s, expression_left =>
    match s.peek with
    | some Token.Add =>
      let s1 := (s.consume).2
      match parse_term pe fuel s1 with
      | some (expression_right, s2) =>
        parse_comparison_operand_loop pe fuel s2
          (Expression.BinaryOperation BinaryOperator.Addition expression_left
            expression_right)
      | none => none
    | some Token.Minus =>
      let s1 := (s.consume).2
      match parse_term pe fuel s1 with
      | some (expression_right, s2) =>
        parse_comparison_operand_loop pe fuel s2
          (Expression.BinaryOperation BinaryOperator.Subtraction
            expression_left expression_right)
      | none => none
    | _ => some (expression_left, s)

/-- `Parser::parse_comparison_operand` (parser.rs lines 514-543). -/
def parse_comparison_operand
    (pe : Stream → Option (Expression × Stream)) (fuel : Nat) (s : Stream) :
    Option (Expression × Stream) :=
  match parse_term pe fuel s with
  | some (expression_left, s1) =>
    parse_comparison_operand_loop pe fuel s1 expression_left
  | none => none

/-- The `while let` loop of `Parser::parse_assignment_operand` (parser.rs
lines 490-509): fold `==`/`!=` comparisons leftwards. -/
def parse_assignment_operand_loop
    (pe : Stream → Option (Expression × Stream)) :
    Nat → Stream → Expression → Option (Expression × Stream)
  | 0, _, _ => none
  | fuel + 1, s, expression_left =>
    match s.peek with
    | some Token.Equal =>
      let s1 := (s.consume).2
      match parse_comparison_operand pe fuel s1 with
      | some (expression_right, s2) =>
        parse_assignment_operand_loop pe fuel s2
          (Expression.BinaryOperation BinaryOperator.Equal expression_left
            expression_right)
      | none => none
    | some Token.NotEqual =>
      let s1 := (s.consume).2
      match parse_comparison_operand pe fuel s1 with
      | some (expression_right, s2) =>
        parse_assignment_operand_loop pe fuel s2
          (Expression.BinaryOperation BinaryOperator.NotEqual expression_left
            expression_right)
      | none => none
    | _ => some (expression_left, s)

/-- `Parser::parse_assignment_operand` (parser.rs lines 484-512). -/
def parse_assignment_operand
    (pe : Stream → Option (Expression × Stream)) (fuel : Nat) (s : Stream) :
    Option (Expression × Stream) :=
  match parse_comparison_operand pe fuel s with
  | some (expression_left, s1) =>
    parse_assignment_operand_loop pe fuel s1 expression_left
  | none => none

/-- The `while let` loop of `Parser::parse_expression` (parser.rs lines
462-479): fold `= operand` onto the accumulator on the left, so repeated
assignment nests leftwards. -/
def parse_expression_loop
    (pe : Stream → Option (Expression × Stream)) :
    Nat → Stream → Expression → Option (Expression × Stream)
  | 0, _, _ => none
  | fuel + 1, s, expression_left =>
    match s.peek with
    | some Token.Assign =>
      let s1 := (s.consume).2
      match parse_assignment_operand pe fuel s1 with
      | some (expression_right, s2) =>
        parse_expression_loop pe fuel s2
          (Expression.BinaryOperation BinaryOperator.Assign expression_left
            expression_right)
      | none => none
    | _ => some (expression_left, s)

/-- `Parser::parse_expression` (parser.rs lines 457-482).  This is the
expression knot: the `pe` handed to the layers below is this function at
one unit less fuel. -/
def parse_expression : Nat → Stream → Option (Expression × Stream)
  | 0, _ => none
  | fuel + 1, s =>
    let pe := fun s2 => parse_expression fuel s2
    match parse_assignment_operand pe fuel s with
    | some (expression_left, s1) => parse_expression_loop pe fuel s1 expression_left
    | none => none

/-- Second half of `Parser::parse_variable_definition_statement`
(parser.rs lines 248-272): either `;` with no initializer, or `=`, an
expression, and `;`. -/
def parse_variable_definition_value
    (fuel : Nat) (id : String) (ty : Option String) (s : Stream) :
    Option (Statement × Stream) :=
  if s.match_token Token.EndOfStatement then
    let s1 := (s.consume).2
    some (Statement.VariableDefinition id ty none, s1)
  else
    match s.consume with
    | (some Token.Assign, s1) =>
      match parse_expression fuel s1 with
      | some (e, s2) =>
        match s2.consume with
        | (some Token.EndOfStatement, s3) =>
          some (Statement.VariableDefinition id ty (some e), s3)
        | _ => none
      | none => none
    | _ => none

/-- `Parser::parse_variable_definition_statement` (parser.rs lines
222-273), first half: consume the dispatch token, the identifier, and the
optional `: IDENT`.  The remainder is `parse_variable_definition_value`. -/
def parse_variable_definition_statement (fuel : Nat) (s : Stream) :
    Option (Statement × Stream) :=
  let s0 := (s.consume).2
  match s0.consume with
  | (some (Token.Identifier id), s1) =>
    if s1.match_token Token.VariableTypeIndicator then
      let s2 := (s1.consume).2
      match s2.consume with
      | (some (Token.Identifier tid), s3) =>
        parse_variable_definition_value fuel id (some tid) s3
      | _ => none
    else
      parse_variable_definition_value fuel id none s1
  | _ => none

/-- `Parser::parse_return_statement` (parser.rs lines 417-440): consume
`return`, parse the expression, consume `;`. -/
def parse_return_statement (fuel : Nat) (s : Stream) :
    Option (Statement × Stream) :=
  let s0 := (s.consume).2
  match parse_expression fuel s0 with
  | some (e, s1) =>
    match s1.consume with
    | (some Token.EndOfStatement, s2) => some (Statement.Return e, s2)
    | _ => none
  | none => none

/-- `Parser::parse_expression_statement` (parser.rs lines 442-455). -/
def parse_expression_statement (fuel : Nat) (s : Stream) :
    Option (Statement × Stream) :=
  match parse_expression fuel s with
  | some (e, s1) =>
    match s1.consume with
    | (some Token.EndOfStatement, s2) =>
      some (Statement.Expression e, s2)
    | _ => none
  | none => none

/-- The `loop` of `Parser::parse_block_statement` (parser.rs lines
202-208): `peek` of `None` panics, `}` breaks, anything else parses a
statement.  `ps` is the recursive call to `parse_statement`. -/
def parse_block_loop
    (ps : Stream → Option (Statement × Stream)) :
    Nat → Stream → List Statement → Option (List Statement × Stream)
  | 0, _, _ => none
  | fuel + 1, s, acc =>
    match s.peek with
    | none => none
    | some Token.RightCurlyBracket => some (acc, s)
    | some _ =>
      match ps s with
      | some (st, s1) => parse_block_loop ps fuel s1 (acc ++ [st])
      | none => none

/-- `Parser::parse_block_statement` (parser.rs lines 194-220): consume
`{`, parse statements until `}`, consume `}`. -/
def parse_block_statement
    (ps : Stream → Option (Statement × Stream)) (fuel : Nat) (s : Stream) :
    Option (Statement × Stream) :=
  let s0 := (s.consume).2
  match parse_block_loop ps fuel s0 [] with
  | some (sts, s1) =>
    match s1.consume with
    | (some Token.RightCurlyBracket, s2) => some (Statement.Block sts, s2)
    | _ => none
  | none => none

/-- The `loop` of `Parser::parse_function_body` (parser.rs lines
400-406), identical in shape to the block-statement loop. -/
def parse_function_body_loop
    (ps : Stream → Option (Statement × Stream)) :
    Nat → Stream → List Statement → Option (List Statement × Stream)
  | 0, _, _ => none
  | fuel + 1, s, acc =>
    match s.peek with
    | none => none
    | some Token.RightCurlyBracket => some (acc, s)
    | some _ =>
      match ps s with
      | some (st, s1) => parse_function_body_loop ps fuel s1 (acc ++ [st])
      | none => none

/-- `Parser::parse_function_body` (parser.rs lines 388-415): consume the
opening curly bracket, parse statements until the closing one, consume it. -/
def parse_function_body
    (ps : Stream → Option (Statement × Stream)) (fuel : Nat) (s : Stream) :
    Option (List Statement × Stream) :=
  match s.consume with
  | (some Token.LeftCurlyBracket, s1) =>
    match parse_function_body_loop ps fuel s1 [] with
    | some (sts, s2) =>
      match s2.consume with
      | (some Token.RightCurlyBracket, s3) => some (sts, s3)
      | _ => none
    | none => none
  | _ => none

/-- Tail of `Parser::parse_function_definition_statement` (parser.rs
lines 305-314): parse the body and build the `FunctionDefinition`. -/
def parse_function_definition_body
    (ps : Stream → Option (Statement × Stream)) (fuel : Nat)
    (callee_name : String) (parameters : List Parameter)
    (return_type : Option String) (s : Stream) :
    Option (Statement × Stream) :=
  match parse_function_body ps fuel s with
  | some (statements, s1) =>
    some (Statement.FunctionDefinition callee_name parameters return_type
      statements, s1)
  | none => none

/-- `Parser::parse_function_definition_statement` (parser.rs lines
275-315), first half: consume `func` and the name, parse the parameter
list and the optional `-> IDENT`.  The body is parsed by
`parse_function_definition_body`. -/
def parse_function_definition_statement
    (ps : Stream → Option (Statement × Stream)) (fuel : Nat) (s : Stream) :
    Option (Statement × Stream) :=
  let s0 := (s.consume).2
  match s0.consume with
  | (some (Token.Identifier callee_name), s1) =>
    match parse_function_parameters fuel s1 with
    | some (parameters, s2) =>
      match s2.peek with
      | some Token.ReturnTypeIndicator =>
        let s3 := (s2.consume).2
        match s3.consume with
        | (some (Token.Identifier rt), s4) =>
          parse_function_definition_body ps fuel callee_name parameters
            (some rt) s4
        | _ => none
      | _ =>
        parse_function_definition_body ps fuel callee_name parameters none s2
    | none => none
  | _ => none

/-- `Parser::parse_statement` (parser.rs lines 176-192).  The dispatch is
exactly the source's `match`: note the second arm peeks for `Token::Let`,
a variant lexer.rs never defines or produces, not for `Token::Variable`.
This is the statement knot: the `ps` handed to the block and
function-body loops is this function at one unit less fuel. -/
def parse_statement : Nat → Stream → Option (Statement × Stream)
  | 0, _ => none
  | fuel + 1, s =>
    let ps := fun s2 => parse_statement fuel s2
    match s.peek with
    | some Token.LeftCurlyBracket => parse_block_statement ps fuel s
    | some Token.Let => parse_variable_definition_statement fuel s
    | some Token.Function => parse_function_definition_statement ps fuel s
    | some Token.Return => parse_return_statement fuel s
    | _ => parse_expression_statement fuel s

/-- The `while` loop of `Parser::parse_program` (parser.rs lines 165-169):
parse statements until `peek() == Some(&EndOfProgram)` (kind equality). -/
def parse_program_loop :
    Nat → Stream → List Statement → Option (List Statement × Stream)
  | 0, _, _ => none
  | fuel + 1, s, acc =>
    if optTokenEq s.peek (some Token.EndOfProgram) then
      some (acc, s)
    else
      match parse_statement fuel s with
      | some (st, s1) => parse_program_loop fuel s1 (acc ++ [st])
      | none => none

/-- `Parser::parse_program` (parser.rs lines 162-174). -/
def parse_program (fuel : Nat) (s : Stream) : Option (Program × Stream) :=
  match parse_program_loop fuel s [] with
  | some (statements, s1) => some ({ statements := statements }, s1)
  | none => none

/-- End-to-end parse of a token list, as done by `Frontend` and `main`:
build the stream with `Stream::new` and run `parse_program`.  The fuel is
a crude upper bound on the recursion depth of any run over the stream;
for the concrete runs below it is never exhausted. -/
def parseProgram (tokens : List Token) : Option Program :=
  match parse_program (20 * tokens.length + 20) (Stream.new tokens) with
  | some (p, _) => some p
  | none => none


/-- Iterated `Stream::consume`, keeping only the stream (the parser calls
`consume` and may drop the returned token). -/
def Stream.consumeN : Stream → Nat → Stream
  | s, 0 => s
  | s, n + 1 => Stream.consumeN ((s.consume).2) n

/-- Invariant satisfied by every arm of the FSM step: an `Again` outcome
lands in `State.Start`, and the token list grows by at most one token,
never by `EndOfProgram`. -/
abbrev FsmStep (t : Tokenizer) (r : Tokenizer × Result) : Prop :=
  (r.2 = Result.Again → r.1.state = State.Start) ∧
  (r.1.tokens = t.tokens ∨
    ∃ tok, tok ≠ Token.EndOfProgram ∧ r.1.tokens = t.tokens ++ [tok])

theorem fsm_proc_start_spec (t : Tokenizer) (b : Option Nat) :
    FsmStep t (fsm_proc_start t b) ∧ (fsm_proc_start t b).2 ≠ Result.Again := by
  cases b with
  | none => exact ⟨⟨(fun h => nomatch h), Or.inl rfl⟩, fun h => nomatch h⟩
  | some byte =>
    simp only [fsm_proc_start]
    by_cases h1 : is_identifier_first_byte byte = true
    · rw [if_pos h1]
      exact ⟨⟨(fun h => nomatch h), Or.inl rfl⟩, fun h => nomatch h⟩
    rw [if_neg h1]
    by_cases h2 : is_number_byte byte = true
    · rw [if_pos h2]
      exact ⟨⟨(fun h => nomatch h), Or.inl rfl⟩, fun h => nomatch h⟩
    rw [if_neg h2]
    by_cases h3 : (byte == 34) = true
    · rw [if_pos h3]
      exact ⟨⟨(fun h => nomatch h), Or.inl rfl⟩, fun h => nomatch h⟩
    rw [if_neg h3]
    by_cases h4 : (byte == 44) = true
    · rw [if_pos h4]
      exact ⟨⟨(fun h => nomatch h),
        Or.inr ⟨Token.Comma, (fun hc => nomatch hc), rfl⟩⟩, fun h => nomatch h⟩
    rw [if_neg h4]
    by_cases h5 : (byte == 61) = true
    · rw [if_pos h5]
      exact ⟨⟨(fun h => nomatch h), Or.inl rfl⟩, fun h => nomatch h⟩
    rw [if_neg h5]
    by_cases h6 : (byte == 33) = true
    · rw [if_pos h6]
      exact ⟨⟨(fun h => nomatch h), Or.inl rfl⟩, fun h => nomatch h⟩
    rw [if_neg h6]
    by_cases h7 : (byte == 58) = true
    · rw [if_pos h7]
      exact ⟨⟨(fun h => nomatch h),
        Or.inr ⟨Token.VariableTypeIndicator, (fun hc => nomatch hc), rfl⟩⟩,
        fun h => nomatch h⟩
    rw [if_neg h7]
    by_cases h8 : (byte == 43) = true
    · rw [if_pos h8]
      exact ⟨⟨(fun h => nomatch h),
        Or.inr ⟨Token.Add, (fun hc => nomatch hc), rfl⟩⟩, fun h => nomatch h⟩
    rw [if_neg h8]
    by_cases h9 : (byte == 45) = true
    · rw [if_pos h9]
      exact ⟨⟨(fun h => nomatch h), Or.inl rfl⟩, fun h => nomatch h⟩
    rw [if_neg h9]
    by_cases h10 : (byte == 42) = true
    · rw [if_pos h10]
      exact ⟨⟨(fun h => nomatch h),
        Or.inr ⟨Token.Times, (fun hc => nomatch hc), rfl⟩⟩, fun h => nomatch h⟩
    rw [if_neg h10]
    by_cases h11 : (byte == 47) = true
    · rw [if_pos h11]
      exact ⟨⟨(fun h => nomatch h), Or.inl rfl⟩, fun h => nomatch h⟩
    rw [if_neg h11]
    by_cases h12 : (byte == 40) = true
    · rw [if_pos h12]
      exact ⟨⟨(fun h => nomatch h),
        Or.inr ⟨Token.LeftRoundBracket, (fun hc => nomatch hc), rfl⟩⟩,
        fun h => nomatch h⟩
    rw [if_neg h12]
    by_cases h13 : (byte == 41) = true
    · rw [if_pos h13]
      exact ⟨⟨(fun h => nomatch h),
        Or.inr ⟨Token.RightRoundBracket, (fun hc => nomatch hc), rfl⟩⟩,
        fun h => nomatch h⟩
    rw [if_neg h13]
    by_cases h14 : (byte == 123) = true
    · rw [if_pos h14]
      exact ⟨⟨(fun h => nomatch h),
        Or.inr ⟨Token.LeftCurlyBracket, (fun hc => nomatch hc), rfl⟩⟩,
        fun h => nomatch h⟩
    rw [if_neg h14]
    by_cases h15 : (byte == 125) = true
    · rw [if_pos h15]
      exact ⟨⟨(fun h => nomatch h),
        Or.inr ⟨Token.RightCurlyBracket, (fun hc => nomatch hc), rfl⟩⟩,
        fun h => nomatch h⟩
    rw [if_neg h15]
    by_cases h16 : (byte == 59) = true
    · rw [if_pos h16]
      exact ⟨⟨(fun h => nomatch h),
        Or.inr ⟨Token.EndOfStatement, (fun hc => nomatch hc), rfl⟩⟩,
        fun h => nomatch h⟩
    rw [if_neg h16]
    by_cases h17 : is_space_byte byte = true
    · rw [if_pos h17]
      exact ⟨⟨(fun h => nomatch h), Or.inl rfl⟩, fun h => nomatch h⟩
    rw [if_neg h17]
    exact ⟨⟨(fun h => nomatch h), Or.inl rfl⟩, fun h => nomatch h⟩


/-- A token list extended by at most one non-`EndOfProgram` token stays
free of `EndOfProgram`. -/
theorem no_eop_push {l : List Token} {tok : Token}
    (h : Token.EndOfProgram ∉ l) (hne : tok ≠ Token.EndOfProgram) :
    Token.EndOfProgram ∉ l ++ [tok] := by
  intro hc
  rcases List.mem_append.mp hc with hc1 | hc2
  · exact h hc1
  · rw [List.mem_singleton] at hc2
    exact hne hc2.symm

theorem fsm_proc_have_char_equal_spec (t : Tokenizer) (b : Option Nat) :
    FsmStep t (fsm_proc_have_char_equal t b) := by
  cases b with
  | none =>
    exact ⟨(fun h => nomatch h),
      Or.inr ⟨Token.Assign, (fun hc => nomatch hc), rfl⟩⟩
  | some byte =>
    simp only [fsm_proc_have_char_equal]
    by_cases h1 : (byte == 61) = true
    · rw [if_pos h1]
      exact ⟨(fun h => nomatch h),
        Or.inr ⟨Token.Equal, (fun hc => nomatch hc), rfl⟩⟩
    rw [if_neg h1]
    exact ⟨(fun _ => rfl),
      Or.inr ⟨Token.Assign, (fun hc => nomatch hc), rfl⟩⟩

theorem fsm_proc_have_char_exclamation_mark_spec (t : Tokenizer)
    (b : Option Nat) :
    FsmStep t (fsm_proc_have_char_exclamation_mark t b) := by
  cases b with
  | none => exact ⟨(fun h => nomatch h), Or.inl rfl⟩
  | some byte =>
    simp only [fsm_proc_have_char_exclamation_mark]
    by_cases h1 : (byte == 61) = true
    · rw [if_pos h1]
      exact ⟨(fun h => nomatch h),
        Or.inr ⟨Token.NotEqual, (fun hc => nomatch hc), rfl⟩⟩
    rw [if_neg h1]
    exact ⟨(fun h => nomatch h), Or.inl rfl⟩

theorem fsm_proc_have_char_hyphen_spec (t : Tokenizer) (b : Option Nat) :
    FsmStep t (fsm_proc_have_char_hyphen t b) := by
  cases b with
  | none =>
    exact ⟨(fun h => nomatch h),
      Or.inr ⟨Token.Minus, (fun hc => nomatch hc), rfl⟩⟩
  | some byte =>
    simp only [fsm_proc_have_char_hyphen]
    by_cases h1 : (byte == 62) = true
    · rw [if_pos h1]
      exact ⟨(fun h => nomatch h),
        Or.inr ⟨Token.ReturnTypeIndicator, (fun hc => nomatch hc), rfl⟩⟩
    rw [if_neg h1]
    exact ⟨(fun _ => rfl),
      Or.inr ⟨Token.Minus, (fun hc => nomatch hc), rfl⟩⟩

theorem fsm_proc_have_identifier_char_spec (t : Tokenizer) (b : Option Nat) :
    FsmStep t (fsm_proc_have_identifier_char t b) := by
  cases b with
  | none => exact ⟨(fun h => nomatch h), Or.inl rfl⟩
  | some byte =>
    simp only [fsm_proc_have_identifier_char]
    by_cases h1 : is_identifier_other_byte byte = true
    · rw [if_pos h1]
      exact ⟨(fun h => nomatch h), Or.inl rfl⟩
    rw [if_neg h1]
    refine ⟨(fun _ => rfl), Or.inr ⟨_, ?_, rfl⟩⟩
    by_cases h2 : (t.identifier == "var") = true
    · rw [if_pos h2]
      exact fun hc => nomatch hc
    rw [if_neg h2]
    by_cases h3 : (t.identifier == "func") = true
    · rw [if_pos h3]
      exact fun hc => nomatch hc
    rw [if_neg h3]
    by_cases h4 : (t.identifier == "return") = true
    · rw [if_pos h4]
      exact fun hc => nomatch hc
    rw [if_neg h4]
    exact fun hc => nomatch hc

theorem fsm_proc_have_numeric_char_spec (t : Tokenizer) (b : Option Nat) :
    FsmStep t (fsm_proc_have_numeric_char t b) := by
  cases b with
  | none => exact ⟨(fun h => nomatch h), Or.inl rfl⟩
  | some byte =>
    simp only [fsm_proc_have_numeric_char]
    by_cases h1 : is_number_byte byte = true
    · rw [if_pos h1]
      exact ⟨(fun h => nomatch h), Or.inl rfl⟩
    rw [if_neg h1]
    exact ⟨(fun _ => rfl),
      Or.inr ⟨Token.Number t.number, (fun hc => nomatch hc), rfl⟩⟩

theorem fsm_proc_have_string_start_spec (t : Tokenizer) (b : Option Nat) :
    FsmStep t (fsm_proc_have_string_start t b) := by
  cases b with
  | none => exact ⟨(fun h => nomatch h), Or.inl rfl⟩
  | some byte =>
    simp only [fsm_proc_have_string_start]
    by_cases h1 : (byte == 34) = true
    · rw [if_pos h1]
      exact ⟨(fun h => nomatch h),
        Or.inr ⟨Token.String t.string, (fun hc => nomatch hc), rfl⟩⟩
    rw [if_neg h1]
    by_cases h2 : (byte == 13 || byte == 10 || is_ascii_printable_byte byte) = true
    · rw [if_pos h2]
      exact ⟨(fun h => nomatch h), Or.inl rfl⟩
    rw [if_neg h2]
    exact ⟨(fun h => nomatch h), Or.inl rfl⟩

theorem fsm_proc_have_char_forward_slash_spec (t : Tokenizer)
    (b : Option Nat) :
    FsmStep t (fsm_proc_have_char_forward_slash t b) := by
  cases b with
  | none =>
    exact ⟨(fun h => nomatch h),
      Or.inr ⟨Token.Divide, (fun hc => nomatch hc), rfl⟩⟩
  | some byte =>
    simp only [fsm_proc_have_char_forward_slash]
    by_cases h1 : (byte == 47) = true
    · rw [if_pos h1]
      exact ⟨(fun h => nomatch h), Or.inl rfl⟩
    rw [if_neg h1]
    by_cases h2 : (byte == 42) = true
    · rw [if_pos h2]
      exact ⟨(fun h => nomatch h), Or.inl rfl⟩
    rw [if_neg h2]
    exact ⟨(fun _ => rfl),
      Or.inr ⟨Token.Divide, (fun hc => nomatch hc), rfl⟩⟩

theorem fsm_proc_have_single_line_comment_start_spec (t : Tokenizer)
    (b : Option Nat) :
    FsmStep t (fsm_proc_have_single_line_comment_start t b) := by
  cases b with
  | none => exact ⟨(fun h => nomatch h), Or.inl rfl⟩
  | some byte =>
    simp only [fsm_proc_have_single_line_comment_start]
    by_cases h1 : (byte == 13 || byte == 10) = true
    · rw [if_pos h1]
      exact ⟨(fun h => nomatch h), Or.inl rfl⟩
    rw [if_neg h1]
    exact ⟨(fun h => nomatch h), Or.inl rfl⟩

theorem fsm_proc_have_multi_line_comment_start_spec (t : Tokenizer)
    (b : Option Nat) :
    FsmStep t (fsm_proc_have_multi_line_comment_start t b) := by
  cases b with
  | none => exact ⟨(fun h => nomatch h), Or.inl rfl⟩
  | some byte =>
    simp only [fsm_proc_have_multi_line_comment_start]
    by_cases h1 : (byte == 42) = true
    · rw [if_pos h1]
      exact ⟨(fun h => nomatch h), Or.inl rfl⟩
    rw [if_neg h1]
    exact ⟨(fun h => nomatch h), Or.inl rfl⟩

theorem fsm_proc_have_multi_line_comment_end_char_asterisk_spec
    (t : Tokenizer) (b : Option Nat) :
    FsmStep t (fsm_proc_have_multi_line_comment_end_char_asterisk t b) := by
  cases b with
  | none => exact ⟨(fun h => nomatch h), Or.inl rfl⟩
  | some byte =>
    simp only [fsm_proc_have_multi_line_comment_end_char_asterisk]
    by_cases h1 : (byte == 47) = true
    · rw [if_pos h1]
      exact ⟨(fun h => nomatch h), Or.inl rfl⟩
    rw [if_neg h1]
    exact ⟨(fun h => nomatch h), Or.inl rfl⟩

/-- Every step of the FSM satisfies the invariant: an `Again` outcome is
in `State.Start`, and the token list grows by at most one
non-`EndOfProgram` token. -/
theorem fsm_proc_spec (t : Tokenizer) (b : Option Nat) :
    FsmStep t (fsm_proc t b) := by
  obtain ⟨st, toks, idf, num, str⟩ := t
  cases st
  case Start => exact (fsm_proc_start_spec _ b).1
  case HaveCharEqual => exact fsm_proc_have_char_equal_spec _ b
  case HaveCharExclamationMark =>
    exact fsm_proc_have_char_exclamation_mark_spec _ b
  case HaveCharHyphen => exact fsm_proc_have_char_hyphen_spec _ b
  case HaveIdentifierChar => exact fsm_proc_have_identifier_char_spec _ b
  case HaveNumericChar => exact fsm_proc_have_numeric_char_spec _ b
  case HaveStringStart => exact fsm_proc_have_string_start_spec _ b
  case HaveCharForwardSlash =>
    exact fsm_proc_have_char_forward_slash_spec _ b
  case HaveSingleLineCommentStart =>
    exact fsm_proc_have_single_line_comment_start_spec _ b
  case HaveMultiLineCommentStart =>
    exact fsm_proc_have_multi_line_comment_start_spec _ b
  case HaveMultiLineCommentEndCharAsterisk =>
    exact fsm_proc_have_multi_line_comment_end_char_asterisk_spec _ b

/-- A single FSM step never pushes `EndOfProgram`. -/
theorem fsm_proc_no_eop (t : Tokenizer) (b : Option Nat)
    (h : Token.EndOfProgram ∉ t.tokens) :
    Token.EndOfProgram ∉ (fsm_proc t b).1.tokens := by
  rcases (fsm_proc_spec t b).2 with he | ⟨tok, hne, he⟩
  · rw [he]; exact h
  · rw [he]; exact no_eop_push h hne

/-- `feedAux` never pushes `EndOfProgram` either. -/
theorem feedAux_no_eop (n : Nat) (t : Tokenizer) (b : Option Nat)
    (h : Token.EndOfProgram ∉ t.tokens) :
    Token.EndOfProgram ∉ (feedAux n t b).1.tokens := by
  induction n generalizing t with
  | zero => exact h
  | succ n ih =>
    have hstep := fsm_proc_no_eop t b h
    rcases hf : fsm_proc t b with ⟨t1, r⟩
    rw [hf] at hstep
    cases r <;> simp only [feedAux, hf] <;> first
      | exact hstep
      | exact ih t1 hstep

/-- From `State.Start` the FSM never answers `Again` (the `Again` results
all come from other states), so the `feed` loop never needs more than two
iterations: any fuel of at least 2 gives the same outcome as
`Tokenizer.feed`, which runs it with fuel 2.  This justifies embedding
the source's unbounded `loop` with fuel 2. -/
theorem feedAux_two_suffices (n : Nat) (t : Tokenizer) (b : Option Nat) :
    feedAux (n + 2) t b = t.feed b := by
  show feedAux (n + 2) t b = feedAux 2 t b
  rcases hf : fsm_proc t b with ⟨t1, r⟩
  have hstep := (fsm_proc_spec t b).1
  rw [hf] at hstep
  cases r
  case Continue => simp only [feedAux, hf]
  case InvalidByte => simp only [feedAux, hf]
  case Done => simp only [feedAux, hf]
  case Again =>
    have hstart : t1.state = State.Start := hstep rfl
    rcases hf2 : fsm_proc t1 b with ⟨t2, r2⟩
    have hne : (fsm_proc t1 b).2 ≠ Result.Again := by
      have := (fsm_proc_start_spec t1 b).2
      obtain ⟨st, toks, idf, num, str⟩ := t1
      cases hstart
      simpa [fsm_proc] using this
    rw [hf2] at hne
    cases r2
    case Again => exact absurd rfl hne
    case Continue => simp only [feedAux, hf, hf2]
    case InvalidByte => simp only [feedAux, hf, hf2]
    case Done => simp only [feedAux, hf, hf2]

/-- Feeding each byte of a text preserves freedom from `EndOfProgram`. -/
theorem scan_fold_no_eop (text : List Nat) (t : Tokenizer)
    (h : Token.EndOfProgram ∉ t.tokens) :
    Token.EndOfProgram ∉
      (text.foldl (fun acc b => (acc.feed (some b)).1) t).tokens := by
  induction text generalizing t with
  | nil => exact h
  | cons b rest ih =>
    exact ih ((t.feed (some b)).1) (feedAux_no_eop 2 t (some b) h)

/-- `Tokenizer::scan` appends the terminator to a token list that
contains no `EndOfProgram`. -/
theorem scan_tokens_split (t : Tokenizer) (text : List Nat)
    (h : Token.EndOfProgram ∉ t.tokens) :
    ∃ l, (t.scan text).tokens = l ++ [Token.EndOfProgram] ∧
      Token.EndOfProgram ∉ l := by
  refine ⟨_, rfl, ?_⟩
  exact feedAux_no_eop 2 _ none (scan_fold_no_eop text t h)

/-- Claim C7 (confirmed): for every input text, the token sequence
produced by `scan` ends with exactly one `EndOfProgram` token, and no
`EndOfProgram` appears at any earlier position. -/
theorem tokenize_single_terminator (text : List Nat) :
    ∃ l, tokenize text = l ++ [Token.EndOfProgram] ∧
      Token.EndOfProgram ∉ l :=
  scan_tokens_split Tokenizer.new text (List.not_mem_nil _)

/-- `consume` past the end leaves the stream unchanged (the source
returns `None` without advancing the cursor). -/
theorem consume_past (s : Stream) (h : s.tokens.length ≤ s.current) :
    (s.consume).2 = s := by
  rw [Stream.consume, dif_neg (Nat.not_lt.mpr h)]

theorem consumeN_past (s : Stream) (h : s.tokens.length ≤ s.current) :
    ∀ n, s.consumeN n = s := by
  intro n
  induction n with
  | zero => rfl
  | succ n ih =>
    show ((s.consume).2).consumeN n = s
    rw [consume_past s h, ih]

theorem peek_past (s : Stream) (h : s.tokens.length ≤ s.current) :
    s.peek = none := by
  rw [Stream.peek, dif_neg (Nat.not_lt.mpr h)]

/-- Claim C8 (corrected, amended): when the cursor sits on the final
`EndOfProgram`, `peek` returns `EndOfProgram`; but after any positive
number of further `consume` calls the `EndOfProgram` has been consumed
and `peek` returns `none` instead. -/
theorem peek_at_eop_until_consumed (l : List Token) (n : Nat) :
    (Stream.mk (l ++ [Token.EndOfProgram]) l.length).peek
      = some Token.EndOfProgram ∧
    ((Stream.mk (l ++ [Token.EndOfProgram]) l.length).consumeN (n + 1)).peek
      = none := by
  have hlen : (l ++ [Token.EndOfProgram]).length = l.length + 1 := by
    simp
  constructor
  · have hlt : l.length < (l ++ [Token.EndOfProgram]).length := by
      rw [hlen]; exact Nat.lt_succ_self _
    rw [Stream.peek, dif_pos hlt]
    simp
  · have hc : ((Stream.mk (l ++ [Token.EndOfProgram]) l.length).consume).2
        = Stream.mk (l ++ [Token.EndOfProgram]) (l.length + 1) := by
      have hlt : l.length < (l ++ [Token.EndOfProgram]).length := by
        rw [hlen]; exact Nat.lt_succ_self _
      rw [Stream.consume, dif_pos hlt]
    show ((((Stream.mk (l ++ [Token.EndOfProgram]) l.length).consume).2).consumeN
      n).peek = none
    rw [hc, consumeN_past _ (by rw [hlen]) n, peek_past _ (by rw [hlen])]

/-- Claim C8 (counterexample): a stream consisting of the single token
`EndOfProgram`, with the cursor on it, peeks `EndOfProgram`; but after
one further `consume` the next `peek` is no longer `EndOfProgram` (it is
`none`), refuting "every subsequent peek returns EndOfProgram regardless
of how many consume calls happen in between". -/
theorem peek_after_consuming_eop_is_none :
    (Stream.new [Token.EndOfProgram]).peek = some Token.EndOfProgram ∧
    ((Stream.new [Token.EndOfProgram]).consumeN 1).peek
      ≠ some Token.EndOfProgram := by
  decide

/-- Claim C1 (code_bug): scanning the source text `var x;` produces the
keyword token `Variable`, but `parse_statement` dispatches variable
definitions on `Token.Let` — a variant that lexer.rs does not define and
the tokenizer never produces (parser.rs line 182 does not even compile
against lexer.rs's `Token`).  The `Variable` token therefore falls
through to expression-statement parsing, which fails; the whole parse of
`var x;` returns `none` instead of the claimed one-statement program. -/
theorem var_statement_fails_to_parse :
    tokenize (strBytes "var x;") =
      [Token.Variable, Token.Identifier "x", Token.EndOfStatement,
       Token.EndOfProgram] ∧
    parseProgram (tokenize (strBytes "var x;")) = none :=
  ⟨rfl, rfl⟩

/-- Claim C2 (counterexample): scanning `a ! b;` does NOT halt the front
end: `scan` ignores the `InvalidByte` result of `feed`, drops the byte
that was being examined, and produces exactly the token stream of
`a  b;` — the stream "as if the byte were absent". -/
theorem scan_does_not_halt_on_invalid_byte :
    tokenize (strBytes "a ! b;") =
      [Token.Identifier "a", Token.Identifier "b", Token.EndOfStatement,
       Token.EndOfProgram] ∧
    tokenize (strBytes "a ! b;") = tokenize (strBytes "a  b;") :=
  ⟨rfl, rfl⟩

/-- Claim C2 (corrected, amended): the FSM step function does detect the
lexical errors — `!` followed by a non-`=` byte or by end of input, an
invalid byte in `Start`, an invalid byte inside a string literal all
yield `Result.InvalidByte` — but `Tokenizer::scan` discards the result
of every `feed` call and keeps scanning, so `a ! b;` yields the same
token stream as `a  b;` with no error surfaced.  (Byte 32 is the space
after the exclamation mark, 64 is an at-sign, 7 is a control byte.) -/
theorem fsm_detects_invalid_byte_but_scan_continues :
    ((Tokenizer.mk State.HaveCharExclamationMark [] "" 0 "").feed
      (some 32)).2 = Result.InvalidByte ∧
    ((Tokenizer.mk State.HaveCharExclamationMark [] "" 0 "").feed
      none).2 = Result.InvalidByte ∧
    ((Tokenizer.mk State.Start [] "" 0 "").feed (some 64)).2
      = Result.InvalidByte ∧
    ((Tokenizer.mk State.HaveStringStart [] "" 0 "").feed (some 7)).2
      = Result.InvalidByte ∧
    tokenize (strBytes "a ! b;") = tokenize (strBytes "a  b;") :=
  ⟨rfl, rfl, rfl, rfl, rfl⟩

/-- Claim C3 (counterexample): feeding the end-of-input sentinel while an
identifier run (`x`) or a number run (`47`) is in progress does NOT
flush the accumulated token: the `None` branches of the identifier and
numeric states return `Done` without pushing anything, so only
`EndOfProgram` is emitted. -/
theorem eof_identifier_number_not_flushed :
    tokenize (strBytes "x") = [Token.EndOfProgram] ∧
    tokenize (strBytes "47") = [Token.EndOfProgram] :=
  ⟨rfl, rfl⟩

/-- Claim C3 (corrected, amended): at end-of-input the pending
single-character operator states do flush — `HaveCharEqual` emits
`Assign`, `HaveCharHyphen` emits `Minus`, `HaveCharForwardSlash` emits
`Divide` — but an in-progress identifier or number run is discarded
without emitting its token. -/
theorem eof_flush_behavior :
    tokenize (strBytes "=") = [Token.Assign, Token.EndOfProgram] ∧
    tokenize (strBytes "-") = [Token.Minus, Token.EndOfProgram] ∧
    tokenize (strBytes "/") = [Token.Divide, Token.EndOfProgram] ∧
    tokenize (strBytes "x") = [Token.EndOfProgram] ∧
    tokenize (strBytes "47") = [Token.EndOfProgram] :=
  ⟨rfl, rfl, rfl, rfl, rfl⟩

/-- Claim C4 (counterexample): `a = b = c;` does NOT parse to the
right-nested tree `Assign(a, Assign(b, c))`: the assignment layer folds
leftwards (parser.rs lines 462-479 wrap the accumulator on the left). -/
theorem assignment_not_right_nested :
    parseProgram (tokenize (strBytes "a = b = c;")) ≠
      some { statements := [Statement.Expression
        (Expression.BinaryOperation BinaryOperator.Assign
          (Expression.Identifier "a")
          (Expression.BinaryOperation BinaryOperator.Assign
            (Expression.Identifier "b") (Expression.Identifier "c")))] } := by
  have e : parseProgram (tokenize (strBytes "a = b = c;")) =
      some { statements := [Statement.Expression
        (Expression.BinaryOperation BinaryOperator.Assign
          (Expression.BinaryOperation BinaryOperator.Assign
            (Expression.Identifier "a") (Expression.Identifier "b"))
          (Expression.Identifier "c"))] } := rfl
  rw [e]
  intro hc
  simp at hc

/-- Claim C4 (corrected, amended): `a = b = c;` parses as the LEFT-nested
tree `Assign(Assign(a, b), c)`: the assignment level, like every other
binary-operator level of this parser, folds left-associatively. -/
theorem assignment_folds_left :
    parseProgram (tokenize (strBytes "a = b = c;")) =
      some { statements := [Statement.Expression
        (Expression.BinaryOperation BinaryOperator.Assign
          (Expression.BinaryOperation BinaryOperator.Assign
            (Expression.Identifier "a") (Expression.Identifier "b"))
          (Expression.Identifier "c"))] } := rfl

/-- Claim C5 (confirmed): multiplicative operators bind tighter than
additive ones and same-level operators fold left-associatively:
`a * b + c` parses as `(a*b)+c`, `a + b * c` as `a+(b*c)`,
`a - b - c` as `(a-b)-c`, and `a == b + c` as `a == (b+c)`. -/
theorem operator_precedence_and_associativity :
    parseProgram (tokenize (strBytes "a * b + c;")) =
      some { statements := [Statement.Expression
        (Expression.BinaryOperation BinaryOperator.Addition
          (Expression.BinaryOperation BinaryOperator.Multiplication
            (Expression.Identifier "a") (Expression.Identifier "b"))
          (Expression.Identifier "c"))] } ∧
    parseProgram (tokenize (strBytes "a + b * c;")) =
      some { statements := [Statement.Expression
        (Expression.BinaryOperation BinaryOperator.Addition
          (Expression.Identifier "a")
          (Expression.BinaryOperation BinaryOperator.Multiplication
            (Expression.Identifier "b") (Expression.Identifier "c")))] } ∧
    parseProgram (tokenize (strBytes "a - b - c;")) =
      some { statements := [Statement.Expression
        (Expression.BinaryOperation BinaryOperator.Subtraction
          (Expression.BinaryOperation BinaryOperator.Subtraction
            (Expression.Identifier "a") (Expression.Identifier "b"))
          (Expression.Identifier "c"))] } ∧
    parseProgram (tokenize (strBytes "a == b + c;")) =
      some { statements := [Statement.Expression
        (Expression.BinaryOperation BinaryOperator.Equal
          (Expression.Identifier "a")
          (Expression.BinaryOperation BinaryOperator.Addition
            (Expression.Identifier "b") (Expression.Identifier "c")))] } :=
  ⟨rfl, rfl, rfl, rfl⟩

/-- Claim C6 (counterexample): a trailing comma immediately before `)` in
a function parameter list is NOT a syntax error: `func f(a,) \x7b\x7d`
parses successfully (the parameter loop consumes the comma, then sees `)`
and breaks). -/
theorem trailing_comma_accepted :
    parseProgram (tokenize (strBytes "func f(a,) \x7b\x7d")) ≠ none := by
  have e : parseProgram (tokenize (strBytes "func f(a,) \x7b\x7d")) =
      some { statements := [Statement.FunctionDefinition "f"
        [{ name := "a", type := none }] none []] } := rfl
  rw [e]
  intro hc
  cases hc

/-- Claim C6 (corrected, amended): a trailing comma immediately before
`)` is accepted, and the list parses to exactly the parameters before
the comma: `func f(a,) \x7b\x7d` yields the one-parameter
`FunctionDefinition`. -/
theorem trailing_comma_yields_one_parameter :
    parseProgram (tokenize (strBytes "func f(a,) \x7b\x7d")) =
      some { statements := [Statement.FunctionDefinition "f"
        [{ name := "a", type := none }] none []] } := rfl

/-- Claim C9 (counterexample): after scanning an unterminated string
literal, `extract` leaves the string buffer holding `ab`, so the
tokenizer after `extract` is NOT equal to a freshly constructed one
(whose string buffer is empty). -/
theorem extract_leaves_string_buffer :
    ((Tokenizer.new.scan (strBytes "\"ab")).extract).2.string = "ab" ∧
    Tokenizer.new.string = "" ∧
    ((Tokenizer.new.scan (strBytes "\"ab")).extract).2 ≠ Tokenizer.new := by
  refine ⟨rfl, rfl, ?_⟩
  decide

/-- Claim C9 (corrected, amended): `extract` resets the FSM state, the
token buffer, the identifier buffer and the number accumulator to their
freshly-constructed values, but leaves the string buffer unchanged
(lexer.rs lines 604-613 never assign `self.string`). -/
theorem extract_resets_all_but_string (t : Tokenizer) :
    (t.extract).2 = Tokenizer.mk State.Start [] "" 0 t.string := rfl

/-- Claim C10 (confirmed): multi-line comments do not nest.  In the
saw-asterisk state a forward slash (byte 47) returns the scanner to
`Start`; in the in-comment state a forward slash (the start of a
would-be nested `/*`) leaves the state unchanged; and scanning
`/* /* */ x;` emits exactly `Identifier "x"`, `EndOfStatement`,
`EndOfProgram`. -/
theorem multiline_comments_do_not_nest :
    (∀ (toks : List Token) (idf : String) (num : Int) (str : String),
      (fsm_proc (Tokenizer.mk State.HaveMultiLineCommentEndCharAsterisk
        toks idf num str) (some 47)).1.state = State.Start ∧
      (fsm_proc (Tokenizer.mk State.HaveMultiLineCommentStart
        toks idf num str) (some 47)).1.state
        = State.HaveMultiLineCommentStart) ∧
    tokenize (strBytes "/* /* */ x;") =
      [Token.Identifier "x", Token.EndOfStatement, Token.EndOfProgram] :=
  ⟨fun _ _ _ _ => ⟨rfl, rfl⟩, rfl⟩

end Fang
